import Mathlib

/-!
Verification of the q language-server core of this repository.

The definitions below shallowly embed the TypeScript sources:
  * `src/server/src/qLangServer.ts` — the private helpers `rangeFromToken`,
    `isLocal`, `positionToToken`, `getLabel`, the class methods
    `onDocumentSymbol`, `onReferences`, `onDefinition`, `onRenameRequest`,
    `onCompletion`, and the matching algorithm `findIdentifiers`;
  * `src/server/src/util/index.ts` — the exported copies of the four helpers
    (embedded separately in namespace `Util`);
  * `src/server/src/linter/checks.ts` — `unusedVar`, `unusedParam`,
    `declaredAfterUse`.

The token data model follows §3 of the specification (the parser
module itself is not part of the sources at hand):
JavaScript object references used for scope identity (`token.scope === ...`)
are modelled by a `Scope` value carrying a unique identity number plus the
nullary flag of the lambda, and JavaScript `undefined`-able fields are modelled by
`Option`.  JavaScript `===` on possibly-undefined fields (where
`undefined === undefined` is `true`) is modelled by `Option` equality.
-/

/-- Lexical category of a token (the token types of the parser, per §3 of the
specification: identifier, literals, operator/adverb, assignment operator,
brackets, lambda delimiters, reserved keyword). -/
inductive TokenType where
  | Identifier
  | Keyword
  | NumberLiteral
  | StringLiteral
  | SymbolLiteral
  | DateTimeLiteral
  | Operator
  | Adverb
  | AssignmentOp
  | Bracket
  | LambdaOpen
  | LambdaClose
deriving DecidableEq, Repr

/-- The role of the token: left-hand side of a bind (`Assignment`) or any other
occurrence (`Reference`). -/
inductive TokenKind where
  | Assignment
  | Reference
deriving DecidableEq, Repr

/-- Identifier classification (§3): Argument, Local, Global, Unassignable. -/
inductive IdentifierKind where
  | Argument
  | Local
  | Global
  | Unassignable
deriving DecidableEq, Repr

/-- Syntax-error annotation set by the tokenizer (models the error
enum of the parser; only the invalid-escape tag is observed by the code at hand). -/
inductive TokenError where
  | InvalidEscape
deriving DecidableEq, Repr

/-- The identity of one lambda: in the TypeScript sources a scope is a
reference to the lambda-defining token, and scopes are compared with `===`
(reference identity).  We model that reference by a unique number `id`
together with the `nullary` flag of the lambda (no explicit parameter list). -/
structure Scope where
  id : Nat
  nullary : Bool
deriving DecidableEq, Repr

/-- A token, per §3 of the specification.  Optional fields are
`Option` (JavaScript `undefined` ↦ `none`).  `scope` is the enclosing lambda
(or `none` at document scope); `lambda` is present when the token opens or
defines a lambda and carries that lambda identity.  Span fields are the
1-based source coordinates.  `ns` is the namespace prefix of the token. -/
structure Token where
  image : String
  tokenType : TokenType
  kind : Option TokenKind
  identifier : Option String
  identifierKind : Option IdentifierKind
  scope : Option Scope
  lambda : Option Scope
  ns : Option String
  startLine : Nat
  startColumn : Nat
  endLine : Nat
  endColumn : Nat
  error : Option TokenError
deriving DecidableEq, Repr

/-- Protocol position (0-based line/character). -/
structure Position where
  line : Nat
  character : Nat
deriving DecidableEq, Repr

/-- Protocol range.  The field `stop` embeds the protocol field named end
(`end` is reserved in Lean). -/
structure Range where
  start : Position
  stop : Position
deriving DecidableEq, Repr

/-- Protocol location: document URI plus range. -/
structure Location where
  uri : String
  range : Range
deriving DecidableEq, Repr

/-- Protocol text edit. -/
structure TextEdit where
  range : Range
  newText : String
deriving DecidableEq, Repr

/-- Workspace edit: the rename result maps the document URI to its edits. -/
structure WorkspaceEdit where
  uri : String
  edits : List TextEdit
deriving DecidableEq, Repr

/-- The LSP `SymbolKind` constants used by `onDocumentSymbol`
(`Object` = 19, `Array` = 18, `Variable` = 13), plus `Function` (12) —
the constant the specification names for lambda-defining entries. -/
inductive SymbolKind where
  | Object
  | Array
  | Variable
  | Function
deriving DecidableEq, Repr

/-- The LSP `CompletionItemKind` constants used by `onCompletion`. -/
inductive CompletionItemKind where
  | Function
  | Variable
deriving DecidableEq, Repr

/-- Protocol completion item. -/
structure CompletionItem where
  label : String
  kind : CompletionItemKind
deriving DecidableEq, Repr

/-- Protocol document symbol (outline entry). -/
inductive DocumentSymbol where
  | mk : String → SymbolKind → Range → Range → List DocumentSymbol → DocumentSymbol

/-- The label of the outline entry. -/
def DocumentSymbol.name : DocumentSymbol → String
  | .mk n _ _ _ _ => n

/-- The symbol kind of the outline entry. -/
def DocumentSymbol.kind : DocumentSymbol → SymbolKind
  | .mk _ k _ _ _ => k

/-- The range of the outline entry. -/
def DocumentSymbol.range : DocumentSymbol → Range
  | .mk _ _ r _ _ => r

/-- The children of the outline entry. -/
def DocumentSymbol.children : DocumentSymbol → List DocumentSymbol
  | .mk _ _ _ _ c => c

/-- The `FindKind` enum of `qLangServer.ts`. -/
inductive FindKind where
  | Reference
  | Definition
  | Rename
  | Completion
deriving DecidableEq, Repr

/-- JavaScript `x || 1` on a numeric field: `0` (and `undefined`, which we
fold into `0`) is replaced by `1`. -/
def orOne (n : Nat) : Nat :=
  if n == 0 then 1 else n

/-- `rangeFromToken` of `qLangServer.ts` (lines 46–53): 1-based token span to
0-based protocol range; the end column is not decremented. -/
def rangeFromToken (token : Token) : Range :=
  ⟨⟨orOne token.startLine - 1, orOne token.startColumn - 1⟩,
   ⟨orOne token.endLine - 1, orOne token.endColumn⟩⟩

/-- `isLocal` of `qLangServer.ts` (lines 55–74). -/
def isLocal (tokens : List Token) (target : Token) : Bool :=
  match target.scope with
  | none => false
  | some s =>
    if s.nullary &&
        (target.identifier == some "x" || target.identifier == some "y" ||
          target.identifier == some "z") then
      true
    else
      tokens.any fun token =>
        token.kind == some TokenKind.Assignment &&
        token.scope == target.scope &&
        token.identifier == target.identifier

/-- `positionToToken` of `qLangServer.ts` (lines 76–86): the first token whose
(protocol) range contains the position. -/
def positionToToken (tokens : List Token) (position : Position) : Option Token :=
  tokens.find? fun token =>
    let r := rangeFromToken token
    r.start.line ≤ position.line && position.line ≤ r.stop.line &&
      r.start.character ≤ position.character &&
      position.character ≤ r.stop.character

/-- JavaScript `String.prototype.replace` with a plain-string pattern:
replace the first occurrence only. -/
def replaceFirst (s pat repl : String) : String :=
  match s.splitOn pat with
  | [] => s
  | [x] => x
  | x :: y :: rest => x ++ repl ++ String.intercalate pat (y :: rest)

/-- `getLabel` of `qLangServer.ts` (lines 88–98): the identifier (or image),
stripped of the source namespace prefix when present. -/
def getLabel (token : Token) (source : Option Token) : String :=
  let label := match token.identifier with
    | some s => if s == "" then token.image else s
    | none => token.image
  match source with
  | some src =>
    match src.ns with
    | some nsp =>
      if nsp != "" && label.startsWith nsp then
        replaceFirst label (nsp ++ ".") ""
      else label
    | none => label
  | none => label

/-- The de-duplicating accumulation loop of the `Completion` branch of
`findIdentifiers`: push a token unless an already-collected token has the
same identifier. -/
def dedupeGo (acc : List Token) : List Token → List Token
  | [] => acc
  | t :: rest =>
    if acc.any fun item => item.identifier == t.identifier then
      dedupeGo acc rest
    else
      dedupeGo (acc ++ [t]) rest

/-- `findIdentifiers` of `qLangServer.ts` (lines 225–286). -/
def findIdentifiers (kind : FindKind) (tokens : List Token)
    (source : Option Token) : List Token :=
  match source with
  | none => []
  | some src =>
    if src.identifierKind == some IdentifierKind.Unassignable then []
    else
      match kind with
      | .Rename | .Reference =>
        if isLocal tokens src then
          tokens.filter fun token =>
            token.tokenType == TokenType.Identifier &&
            token.identifierKind != some IdentifierKind.Unassignable &&
            token.identifier == src.identifier &&
            token.scope == src.scope
        else
          tokens.filter fun token =>
            token.tokenType == TokenType.Identifier &&
            token.identifierKind != some IdentifierKind.Unassignable &&
            token.identifier == src.identifier &&
            !isLocal tokens token
      | .Definition =>
        if isLocal tokens src then
          tokens.filter fun token =>
            token.kind == some TokenKind.Assignment &&
            token.identifierKind != some IdentifierKind.Unassignable &&
            token.identifier == src.identifier &&
            token.scope == src.scope
        else
          tokens.filter fun token =>
            token.kind == some TokenKind.Assignment &&
            token.identifierKind != some IdentifierKind.Unassignable &&
            token.identifier == src.identifier &&
            !isLocal tokens token
      | .Completion =>
        dedupeGo []
          (tokens.filter fun token =>
            token.kind == some TokenKind.Assignment &&
            token.identifierKind != some IdentifierKind.Unassignable &&
            ((match token.identifier with
              | some s => s.startsWith "."
              | none => false) ||
              token.ns == src.ns) &&
            (token.scope == none || token.scope == src.scope))

/-- `onDocumentSymbol` of `qLangServer.ts` (lines 128–161), parameterized by
the parsed token sequence of the document. -/
def onDocumentSymbol (tokens : List Token) : List DocumentSymbol :=
  (tokens.filter fun token =>
      token.kind == some TokenKind.Assignment && token.scope == none).map
    fun token =>
      DocumentSymbol.mk (getLabel token none)
        (if token.lambda.isSome then SymbolKind.Object else SymbolKind.Variable)
        (rangeFromToken token) (rangeFromToken token)
        ((tokens.filter fun child =>
            child.scope.isSome && child.scope == token.lambda &&
              child.kind == some TokenKind.Assignment).map
          fun child =>
            DocumentSymbol.mk child.image
              (if child.identifierKind == some IdentifierKind.Argument then
                SymbolKind.Array
              else SymbolKind.Variable)
              (rangeFromToken child) (rangeFromToken child) [])

/-- `onReferences` of `qLangServer.ts` (lines 163–169), parameterized by the
parsed token sequence. -/
def onReferences (tokens : List Token) (position : Position)
    (uri : String) : List Location :=
  (findIdentifiers FindKind.Reference tokens (positionToToken tokens position)).map
    fun token => ⟨uri, rangeFromToken token⟩

/-- `onDefinition` of `qLangServer.ts` (lines 171–180), parameterized by the
parsed token sequence. -/
def onDefinition (tokens : List Token) (position : Position)
    (uri : String) : List Location :=
  (findIdentifiers FindKind.Definition tokens (positionToToken tokens position)).map
    fun token => ⟨uri, rangeFromToken token⟩

/-- `onRenameRequest` of `qLangServer.ts` (lines 182–199), parameterized by
the parsed token sequence; `none` embeds the `null` no-op result. -/
def onRenameRequest (tokens : List Token) (position : Position)
    (newName uri : String) : Option WorkspaceEdit :=
  let edits :=
    (findIdentifiers FindKind.Rename tokens (positionToToken tokens position)).map
      fun token => TextEdit.mk (rangeFromToken token) newName
  if edits.length == 0 then none else some ⟨uri, edits⟩

/-- `onCompletion` of `qLangServer.ts` (lines 201–215), parameterized by the
parsed token sequence. -/
def onCompletion (tokens : List Token) (position : Position) : List CompletionItem :=
  let source := positionToToken tokens position
  (findIdentifiers FindKind.Completion tokens source).map fun token =>
    ⟨getLabel token source,
      if token.lambda.isSome then CompletionItemKind.Function
      else CompletionItemKind.Variable⟩

namespace Util

/-- `rangeFromToken` exported by `util/index.ts` (lines 17–24). -/
def rangeFromToken (token : Token) : Range :=
  ⟨⟨orOne token.startLine - 1, orOne token.startColumn - 1⟩,
   ⟨orOne token.endLine - 1, orOne token.endColumn⟩⟩

/-- `isLocal` exported by `util/index.ts` (lines 26–45). -/
def isLocal (tokens : List Token) (target : Token) : Bool :=
  match target.scope with
  | none => false
  | some s =>
    if s.nullary &&
        (target.identifier == some "x" || target.identifier == some "y" ||
          target.identifier == some "z") then
      true
    else
      tokens.any fun token =>
        token.kind == some TokenKind.Assignment &&
        token.scope == target.scope &&
        token.identifier == target.identifier

/-- `positionToToken` exported by `util/index.ts` (lines 47–57). -/
def positionToToken (tokens : List Token) (position : Position) : Option Token :=
  tokens.find? fun token =>
    let r := Util.rangeFromToken token
    r.start.line ≤ position.line && position.line ≤ r.stop.line &&
      r.start.character ≤ position.character &&
      position.character ≤ r.stop.character

/-- `getLabel` exported by `util/index.ts` (lines 59–69). -/
def getLabel (token : Token) (source : Option Token) : String :=
  let label := match token.identifier with
    | some s => if s == "" then token.image else s
    | none => token.image
  match source with
  | some src =>
    match src.ns with
    | some nsp =>
      if nsp != "" && label.startsWith nsp then
        replaceFirst label (nsp ++ ".") ""
      else label
    | none => label
  | none => label

end Util

/-- Modelled from the spec: the parser module (`src/server/src/parser`, not
present among the sources at hand) exports `inParam`; per the rule table in §4.3 an
`inParam` token is an Argument-kind one (UNUSED_PARAM applies to "an
Argument-kind Assignment token"). -/
def inParam (token : Token) : Bool :=
  token.identifierKind == some IdentifierKind.Argument

/-- Modelled from the spec: the parser module exports `inLambda`, the
enclosing-lambda context of the token — the §3 scope back-reference (a
back-reference to the nearest enclosing lambda-defining token, or none for
global scope); rules compare it with reference equality (§4.3: same scope is
an exact-reference equality test). -/
def inLambda (token : Token) : Option Scope :=
  token.scope

/-- Modelled from the spec: the parser module exports `assigned`, whether the
token is an Assignment occurrence (§3 role: "Assignment (left-hand side of a
bind) or Reference"). -/
def assigned (token : Token) : Bool :=
  token.kind == some TokenKind.Assignment

/-- Modelled from the spec: the parser module exports `assignable`, whether
the token can legally be an assignment target — its identifier kind is not
Unassignable (§3: "Unassignable (cannot legally be an assignment target —
literals, reserved constructs)"). -/
def assignable (token : Token) : Bool :=
  token.identifierKind != some IdentifierKind.Unassignable

/-- Modelled from the spec: the parser module exports `identifier`, the
resolved identifier name of the token (§3). -/
def identifier (token : Token) : Option String :=
  token.identifier

/-- Modelled from the spec: the parser module exports `ordered`, source
position comparison — the position of the first token (compared by line,
then column) strictly precedes that of the second (§4.3 DECLARED_AFTER_USE:
the source position of Y, by line then column, precedes that of X). -/
def ordered (a b : Token) : Bool :=
  a.startLine < b.startLine ||
    (a.startLine == b.startLine && a.startColumn < b.startColumn)

/-- `unusedParam` of `linter/checks.ts` (lines 34–48). -/
def unusedParam (tokens : List Token) : List Token :=
  tokens.filter fun token =>
    inParam token && assigned token && assignable token &&
    !(tokens.any fun target =>
      !assigned target && assignable target &&
      inLambda target == inLambda token &&
      identifier target == identifier token)

/-- `unusedVar` of `linter/checks.ts` (lines 50–65). -/
def unusedVar (tokens : List Token) : List Token :=
  tokens.filter fun token =>
    !inParam token && (inLambda token).isSome && assigned token &&
    assignable token &&
    !(tokens.any fun target =>
      !assigned target && assignable target &&
      inLambda target == inLambda token &&
      identifier target == identifier token)

/-- `declaredAfterUse` of `linter/checks.ts` (lines 67–80). -/
def declaredAfterUse (tokens : List Token) : List Token :=
  (tokens.filter fun token =>
      !inParam token && assigned token && assignable token).filter
    fun token =>
      tokens.any fun target =>
        !assigned target && assignable target &&
        inLambda target == inLambda token &&
        identifier target == identifier token &&
        ordered target token

/-- `deprecatedDatetime` of `linter/checks.ts` (lines 26–28). -/
def deprecatedDatetime (tokens : List Token) : List Token :=
  tokens.filter fun token => token.tokenType == TokenType.DateTimeLiteral

/-- `invalidEscape` of `linter/checks.ts` (lines 30–32). -/
def invalidEscape (tokens : List Token) : List Token :=
  tokens.filter fun token => token.error == some TokenError.InvalidEscape

/-- The (protocol) range of a token contains a position — the declarative
reading of the containment test inside `positionToToken`. -/
def posInToken (token : Token) (position : Position) : Prop :=
  (rangeFromToken token).start.line ≤ position.line ∧
    position.line ≤ (rangeFromToken token).stop.line ∧
    (rangeFromToken token).start.character ≤ position.character ∧
    position.character ≤ (rangeFromToken token).stop.character

instance (token : Token) (position : Position) :
    Decidable (posInToken token position) := by
  unfold posInToken
  infer_instance

/-- The resolved name of the token is globally qualified: it begins with the
namespace separator dot. -/
def globallyQualified (t : Token) : Prop :=
  ∃ s, t.identifier = some s ∧ s.startsWith "."

instance (t : Token) : Decidable (globallyQualified t) :=
  match h : t.identifier with
  | none => isFalse (by simp [globallyQualified, h])
  | some v =>
    if hv : v.startsWith "." then isTrue ⟨v, h, hv⟩
    else isFalse (by simp [globallyQualified, h, hv])

/-- De-duplication as the specification words it: walk the tokens in
sequence order, keep a token only when its identifier was not seen before,
and record the identifiers already taken in `seen`. -/
def ddFrom (seen : List (Option String)) : List Token → List Token
  | [] => []
  | t :: rest =>
    if seen.contains t.identifier then ddFrom seen rest
    else t :: ddFrom (seen ++ [t.identifier]) rest

/-- The Completion candidate list as the specification words it: the
Assignment tokens that are not Unassignable, whose scope is global or exactly
that of the cursor token, and whose name is globally qualified or whose
namespace equals that of the cursor token, de-duplicated by identifier
keeping the first occurrence in sequence order. -/
def specCompletion (tokens : List Token) (source : Token) : List Token :=
  ddFrom []
    (tokens.filter fun t =>
      decide (t.kind = some TokenKind.Assignment ∧
        t.identifierKind ≠ some IdentifierKind.Unassignable ∧
        (globallyQualified t ∨ t.ns = source.ns) ∧
        (t.scope = none ∨ t.scope = source.scope)))

/-- A non-nullary lambda identity used by the concrete C1 tokens. -/
def C1scope : Scope := ⟨0, false⟩

/-- C1 example: an Assignment token for `a` inside the lambda `C1scope`
(hence Local there). -/
def C1src : Token :=
  ⟨"a", TokenType.Identifier, some TokenKind.Assignment, some "a",
    some IdentifierKind.Local, some C1scope, none, none, 1, 2, 1, 3, none⟩

/-- C1 example: an Unassignable token carrying the same identifier and the
same scope reference. -/
def C1bad : Token :=
  ⟨"a", TokenType.Identifier, none, some "a",
    some IdentifierKind.Unassignable, some C1scope, none, none, 1, 5, 1, 6, none⟩

/-- C1 example token sequence. -/
def C1tokens : List Token := [C1src, C1bad]

/-- C3 example token with 1-based span fields. -/
def C3tok : Token :=
  ⟨"x", TokenType.Identifier, none, some "x", none, none, none, none,
    3, 4, 3, 5, none⟩

/-- C4 example: a scope-less Assignment token that opens a lambda. -/
def C4tok : Token :=
  ⟨"f", TokenType.Identifier, some TokenKind.Assignment, some "f",
    some IdentifierKind.Global, none, some ⟨0, false⟩, none, 1, 1, 1, 2, none⟩

/-- C4 example token sequence. -/
def C4tokens : List Token := [C4tok]

/-- C5 example: a global Assignment token for `a` spanning the cursor. -/
def C5a : Token :=
  ⟨"a", TokenType.Identifier, some TokenKind.Assignment, some "a",
    some IdentifierKind.Global, none, none, none, 1, 1, 1, 2, none⟩

/-- C5 example: a global lambda-defining Assignment token for `b`. -/
def C5b : Token :=
  ⟨"b", TokenType.Identifier, some TokenKind.Assignment, some "b",
    some IdentifierKind.Global, none, some ⟨1, true⟩, none, 2, 1, 2, 2, none⟩

/-- C5 example token sequence. -/
def C5tokens : List Token := [C5a, C5b]

/-- C5 example cursor position (0-based), inside the span of `C5a`. -/
def C5pos : Position := ⟨0, 0⟩

/-- Modelled from the spec: the annotated token sequence the tokenizer (the
parser module, not among the sources at hand) produces for the single-line
document `a:1` — the token `a` is a top-level Assignment identifier with no
enclosing scope (§3: scope is none at document scope; §4.2: no enclosing
lambda makes it Global). -/
def C6assign : Token :=
  ⟨"a", TokenType.Identifier, some TokenKind.Assignment, some "a",
    some IdentifierKind.Global, none, none, none, 1, 1, 1, 2, none⟩

/-- Modelled from the spec: the assignment operator token of `a:1`. -/
def C6colon : Token :=
  ⟨":", TokenType.AssignmentOp, none, none, none, none, none, none,
    1, 2, 1, 3, none⟩

/-- Modelled from the spec: the numeric literal token of `a:1`
(a literal is Unassignable per §3). -/
def C6lit : Token :=
  ⟨"1", TokenType.NumberLiteral, none, none, some IdentifierKind.Unassignable,
    none, none, none, 1, 3, 1, 4, none⟩

/-- Modelled from the spec: the token sequence for the document `a:1`. -/
def C6tokens : List Token := [C6assign, C6colon, C6lit]

/-- C7 example: a read occurrence of the reserved word `if` (reserved
constructs are Unassignable per §3) preceding its assignment. -/
def C7use : Token :=
  ⟨"if", TokenType.Keyword, some TokenKind.Reference, some "if",
    some IdentifierKind.Unassignable, none, none, none, 1, 1, 1, 3, none⟩

/-- C7 example: an Assignment token binding the reserved word `if`, placed
after the read occurrence. -/
def C7assign : Token :=
  ⟨"if", TokenType.Keyword, some TokenKind.Assignment, some "if",
    some IdentifierKind.Unassignable, none, none, none, 1, 4, 1, 6, none⟩

/-- C7 example token sequence (the document `if;if:1`). -/
def C7tokens : List Token := [C7use, C7assign]

/-- C8 example: a token spanning only line 1. -/
def C8tok : Token :=
  ⟨"a", TokenType.Identifier, some TokenKind.Assignment, some "a",
    some IdentifierKind.Global, none, none, none, 1, 1, 1, 2, none⟩

/-- C8 example token sequence. -/
def C8tokens : List Token := [C8tok]

/-- C8 example cursor position, outside the span of every token. -/
def C8pos : Position := ⟨5, 5⟩

/-- C9 example: a global Assignment token. -/
def C9tok : Token :=
  ⟨"b", TokenType.Identifier, some TokenKind.Assignment, some "b",
    some IdentifierKind.Global, none, none, none, 1, 1, 1, 2, none⟩

/-- C9 example token sequence. -/
def C9tokens : List Token := [C9tok]

/-- Two booleans agreeing as propositions are equal. -/
theorem bool_eq_of_iff {a b : Bool} (h : a = true ↔ b = true) : a = b := by
  cases a <;> cases b <;> simp_all

/-- `orOne` is the identity on positive numbers. -/
theorem orOne_of_pos {n : Nat} (h : 1 ≤ n) : orOne n = n := by
  unfold orOne
  rw [if_neg]
  simp
  omega

/-- A member of a filtered token list satisfies the filter predicate. -/
theorem mem_filter_pred {p : Token → Bool} {l : List Token} {t : Token}
    (h : t ∈ List.filter p l) : p t = true :=
  (List.mem_filter.mp h).2

/-- Every element produced by the de-duplication loop comes from the
accumulator or from the input list. -/
theorem mem_dedupeGo (l : List Token) : ∀ (acc : List Token) (t : Token),
    t ∈ dedupeGo acc l → t ∈ acc ∨ t ∈ l := by
  induction l with
  | nil => exact fun acc t h => Or.inl h
  | cons x rest ih =>
    intro acc t h
    unfold dedupeGo at h
    split at h
    · rcases ih acc t h with h' | h'
      · exact Or.inl h'
      · exact Or.inr (List.mem_cons_of_mem _ h')
    · rcases ih (acc ++ [x]) t h with h' | h'
      · rcases List.mem_append.mp h' with h'' | h''
        · exact Or.inl h''
        · simp only [List.mem_singleton] at h''
          subst h''
          exact Or.inr (List.mem_cons_self _ _)
      · exact Or.inr (List.mem_cons_of_mem _ h')

/-- Pointwise equal predicates filter a token list identically. -/
theorem filterTok_congr {p q : Token → Bool} :
    ∀ l : List Token, (∀ x ∈ l, p x = q x) → l.filter p = l.filter q
  | [], _ => rfl
  | x :: xs, h => by
    have hx := h x (List.mem_cons_self x xs)
    have ih := filterTok_congr xs fun y hy => h y (List.mem_cons_of_mem x hy)
    simp only [List.filter_cons, hx, ih]

/-- A list is `Forall₂`-related to its image under a map whenever the
relation holds pointwise. -/
theorem forall2_map_self {α β : Type} {R : α → β → Prop} (g : α → β) :
    ∀ l : List α, (∀ x ∈ l, R x (g x)) → List.Forall₂ R l (l.map g)
  | [], _ => List.Forall₂.nil
  | x :: xs, h =>
    List.Forall₂.cons (h x (List.mem_cons_self x xs))
      (forall2_map_self g xs fun y hy => h y (List.mem_cons_of_mem x hy))

/-- Membership of an identifier among the identifiers of a token list is the
duplicate test of the `Completion` accumulation loop. -/
theorem contains_map_identifier (acc : List Token) (x : Option String) :
    (acc.map Token.identifier).contains x =
      acc.any fun item => item.identifier == x := by
  induction acc with
  | nil => rfl
  | cons a as ih =>
    show (x == a.identifier || (as.map Token.identifier).contains x) = _
    rw [ih]
    simp only [List.any_cons]
    congr 1
    apply bool_eq_of_iff
    simp only [beq_iff_eq]
    exact eq_comm

/-- The code-side accumulation loop of the `Completion` branch agrees with
the specification-side first-occurrence de-duplication `ddFrom`. -/
theorem dedupeGo_eq_ddFrom :
    ∀ (l acc : List Token),
      dedupeGo acc l = acc ++ ddFrom (acc.map Token.identifier) l
  | [], acc => by simp [dedupeGo, ddFrom]
  | t :: rest, acc => by
    unfold dedupeGo ddFrom
    rw [contains_map_identifier]
    by_cases h : (acc.any fun item => item.identifier == t.identifier) = true
    · rw [if_pos h, if_pos h, dedupeGo_eq_ddFrom rest acc]
    · rw [if_neg h, if_neg h, dedupeGo_eq_ddFrom rest (acc ++ [t])]
      rw [List.map_append, List.append_assoc]
      rfl

/-- C1 counterexample: the claim says that for a Local source the candidate
set is exactly the tokens with identical scope reference and identical
identifier.  In the sequence `C1tokens` the token `C1bad` shares the scope
and the identifier of the Local source `C1src`, yet `findIdentifiers` omits
it (its identifier kind is Unassignable), so the candidate set is strictly
smaller than the claimed one. -/
theorem findIdentifiers_matching_cex :
    isLocal C1tokens C1src = true ∧
    C1src.identifierKind ≠ some IdentifierKind.Unassignable ∧
    C1bad ∈ C1tokens ∧ C1bad.identifier = C1src.identifier ∧
    C1bad.scope = C1src.scope ∧
    findIdentifiers FindKind.Reference C1tokens (some C1src) = [C1src] ∧
    C1bad ∉ findIdentifiers FindKind.Reference C1tokens (some C1src) := by
  decide

/-- C1 (amended): for every token sequence and every source token that is
not Unassignable, Reference and Rename compute the same candidate set —
exactly the Identifier-category tokens of non-Unassignable identifier kind
with identifier identical to that of the source which, when the source is
Local per the §4.2 locality test, carry the identical scope reference, and
otherwise are not Local within their own scope; Definition computes the same
set with the Assignment-role test in place of the Identifier-category
test. -/
theorem findIdentifiers_matching (tokens : List Token) (source t : Token)
    (h : source.identifierKind ≠ some IdentifierKind.Unassignable) :
    (t ∈ findIdentifiers FindKind.Reference tokens (some source) ↔
      t ∈ tokens ∧ t.tokenType = TokenType.Identifier ∧
        t.identifierKind ≠ some IdentifierKind.Unassignable ∧
        t.identifier = source.identifier ∧
        (if isLocal tokens source then t.scope = source.scope
         else isLocal tokens t = false)) ∧
    findIdentifiers FindKind.Rename tokens (some source) =
      findIdentifiers FindKind.Reference tokens (some source) ∧
    (t ∈ findIdentifiers FindKind.Definition tokens (some source) ↔
      t ∈ tokens ∧ t.kind = some TokenKind.Assignment ∧
        t.identifierKind ≠ some IdentifierKind.Unassignable ∧
        t.identifier = source.identifier ∧
        (if isLocal tokens source then t.scope = source.scope
         else isLocal tokens t = false)) := by
  have hg : ¬(source.identifierKind == some IdentifierKind.Unassignable) = true := by
    simpa using h
  refine ⟨?_, rfl, ?_⟩
  · simp only [findIdentifiers, hg]
    by_cases hloc : isLocal tokens source = true
    · simp only [hloc, if_true, Bool.false_eq_true, if_false, List.mem_filter,
        Bool.and_eq_true, bne_iff_ne, beq_iff_eq]
      tauto
    · simp only [hloc, Bool.false_eq_true, if_false, List.mem_filter,
        Bool.and_eq_true, bne_iff_ne, beq_iff_eq, Bool.not_eq_true']
      tauto
  · simp only [findIdentifiers, hg]
    by_cases hloc : isLocal tokens source = true
    · simp only [hloc, if_true, Bool.false_eq_true, if_false, List.mem_filter,
        Bool.and_eq_true, bne_iff_ne, beq_iff_eq]
      tauto
    · simp only [hloc, Bool.false_eq_true, if_false, List.mem_filter,
        Bool.and_eq_true, bne_iff_ne, beq_iff_eq, Bool.not_eq_true']
      tauto

/-- C1 witness: the amended characterization applied at the concrete local
source `C1src` of `C1tokens`. -/
theorem findIdentifiers_matching_witness :
    C1src.identifierKind ≠ some IdentifierKind.Unassignable ∧
    C1src ∈ findIdentifiers FindKind.Reference C1tokens (some C1src) :=
  ⟨by decide,
    ((findIdentifiers_matching C1tokens C1src C1src (by decide)).1).mpr
      (by decide)⟩

/-- C2: `isLocal tokens target` returns true iff the scope of the target is
set and either (a) the identifier of the target is one of the three implicit
positional names x, y, z and its scope is a nullary lambda, or (b) some token
of the full sequence is an Assignment token with the exact same scope
reference and the same identifier; in every other case it returns false. -/
theorem isLocal_iff (tokens : List Token) (target : Token) :
    isLocal tokens target = true ↔
      ∃ s, target.scope = some s ∧
        ((s.nullary = true ∧
            (target.identifier = some "x" ∨ target.identifier = some "y" ∨
              target.identifier = some "z")) ∨
          ∃ t ∈ tokens, t.kind = some TokenKind.Assignment ∧
            t.scope = target.scope ∧ t.identifier = target.identifier) := by
  cases hs : target.scope with
  | none => simp [isLocal, hs]
  | some s =>
    simp only [isLocal, hs, Bool.and_eq_true, Bool.or_eq_true, beq_iff_eq,
      Option.some.injEq]
    split
    · rename_i hcond
      simp only [true_iff]
      exact ⟨s, rfl, Or.inl ⟨hcond.1, by tauto⟩⟩
    · rename_i hcond
      simp only [List.any_eq_true, Bool.and_eq_true, beq_iff_eq]
      constructor
      · rintro ⟨t, ht, ⟨h1, h2⟩, h3⟩
        exact ⟨s, rfl, Or.inr ⟨t, ht, h1, h2, h3⟩⟩
      · rintro ⟨s', hs', h⟩
        cases hs'
        rcases h with ⟨hnul, hxyz⟩ | ⟨t, ht, h1, h2, h3⟩
        · exact absurd (by tauto) hcond
        · exact ⟨t, ht, ⟨h1, h2⟩, h3⟩

/-- C3: for every token whose span fields are 1-based (all of them at least
1), `rangeFromToken` yields start = (startLine-1, startColumn-1) and
end = (endLine-1, endColumn) — only the end column is not decremented. -/
theorem rangeFromToken_spec (t : Token) (h1 : 1 ≤ t.startLine)
    (h2 : 1 ≤ t.startColumn) (h3 : 1 ≤ t.endLine) (h4 : 1 ≤ t.endColumn) :
    rangeFromToken t =
      ⟨⟨t.startLine - 1, t.startColumn - 1⟩, ⟨t.endLine - 1, t.endColumn⟩⟩ := by
  unfold rangeFromToken
  rw [orOne_of_pos h1, orOne_of_pos h2, orOne_of_pos h3, orOne_of_pos h4]

/-- C3 witness: the position mapping evaluated at the concrete token
`C3tok`. -/
theorem rangeFromToken_spec_witness :
    (1 ≤ C3tok.startLine ∧ 1 ≤ C3tok.startColumn ∧ 1 ≤ C3tok.endLine ∧
      1 ≤ C3tok.endColumn) ∧
    rangeFromToken C3tok =
      ⟨⟨C3tok.startLine - 1, C3tok.startColumn - 1⟩,
       ⟨C3tok.endLine - 1, C3tok.endColumn⟩⟩ :=
  ⟨by decide,
    rangeFromToken_spec C3tok (by decide) (by decide) (by decide) (by decide)⟩

/-- C4 counterexample: the claim says the kind of a top-level entry whose
token opens a lambda is Function; on the concrete sequence `C4tokens` the
produced entry has kind Object, and Object differs from Function (they are
the distinct LSP constants 19 and 12). -/
theorem onDocumentSymbol_spec_cex :
    C4tok ∈ C4tokens ∧ C4tok.kind = some TokenKind.Assignment ∧
    C4tok.scope = none ∧ C4tok.lambda.isSome = true ∧
    (onDocumentSymbol C4tokens).map DocumentSymbol.kind = [SymbolKind.Object] ∧
    SymbolKind.Object ≠ SymbolKind.Function := by
  decide

/-- C4 (amended): for every token sequence the Outline produces exactly one
top-level entry per scope-less Assignment token, in sequence order; the kind
of that entry is the Object symbol kind when the token opens a lambda and
Variable otherwise; and the children of that entry correspond exactly, in
sequence order, to the Assignment tokens whose (present) scope reference
equals the lambda identity of the entry token, kinded Array when the child
identifier kind is Argument and Variable otherwise. -/
theorem onDocumentSymbol_spec (tokens : List Token) :
    List.Forall₂
      (fun tok entry =>
        entry.kind =
          (if tok.lambda.isSome then SymbolKind.Object else SymbolKind.Variable) ∧
        List.Forall₂
          (fun c ce =>
            ce.kind =
              (if c.identifierKind = some IdentifierKind.Argument then
                SymbolKind.Array
              else SymbolKind.Variable))
          (tokens.filter fun c =>
            decide (c.kind = some TokenKind.Assignment ∧ c.scope ≠ none ∧
              c.scope = tok.lambda))
          entry.children)
      (tokens.filter fun t =>
        decide (t.kind = some TokenKind.Assignment ∧ t.scope = none))
      (onDocumentSymbol tokens) := by
  have htop :
      (tokens.filter fun t =>
        decide (t.kind = some TokenKind.Assignment ∧ t.scope = none)) =
      tokens.filter fun t =>
        t.kind == some TokenKind.Assignment && t.scope == none := by
    apply filterTok_congr
    intro x _
    apply bool_eq_of_iff
    simp
  rw [htop]
  unfold onDocumentSymbol
  apply forall2_map_self
  intro tok _
  constructor
  · rfl
  · have hchild :
        (tokens.filter fun c =>
          decide (c.kind = some TokenKind.Assignment ∧ c.scope ≠ none ∧
            c.scope = tok.lambda)) =
        tokens.filter fun c =>
          c.scope.isSome && c.scope == tok.lambda &&
            c.kind == some TokenKind.Assignment := by
      apply filterTok_congr
      intro c _
      apply bool_eq_of_iff
      simp only [decide_eq_true_eq, Bool.and_eq_true, beq_iff_eq,
        Option.isSome_iff_ne_none]
      tauto
    rw [hchild]
    show List.Forall₂ _ _ (List.map _ _)
    apply forall2_map_self
    intro c _
    show (if (c.identifierKind == some IdentifierKind.Argument) = true then
        SymbolKind.Array else SymbolKind.Variable) = _
    simp [beq_iff_eq]

/-- C5: for every token sequence and every cursor position resolving to a
non-Unassignable source token, Completion returns exactly the candidate list
the specification describes (`specCompletion`: the non-Unassignable
Assignment tokens whose scope is global or exactly that of the cursor and
whose name is globally qualified or whose namespace equals that of the
cursor, de-duplicated by identifier keeping the first occurrence in sequence
order), each item labeled by `getLabel` and kinded Function when the
defining token opens a lambda and Variable otherwise. -/
theorem onCompletion_spec (tokens : List Token) (position : Position)
    (source : Token)
    (hsrc : positionToToken tokens position = some source)
    (h : source.identifierKind ≠ some IdentifierKind.Unassignable) :
    onCompletion tokens position =
      (specCompletion tokens source).map fun t =>
        ⟨getLabel t (some source),
          if t.lambda.isSome then CompletionItemKind.Function
          else CompletionItemKind.Variable⟩ := by
  have hg : ¬(source.identifierKind == some IdentifierKind.Unassignable) = true := by
    simpa using h
  unfold onCompletion
  rw [hsrc]
  have hfi : findIdentifiers FindKind.Completion tokens (some source) =
      specCompletion tokens source := by
    simp only [findIdentifiers, hg, Bool.false_eq_true, if_false]
    rw [dedupeGo_eq_ddFrom]
    simp only [List.map_nil, List.nil_append]
    unfold specCompletion
    congr 1
    apply filterTok_congr
    intro x _
    apply bool_eq_of_iff
    simp only [Bool.and_eq_true, Bool.or_eq_true, beq_iff_eq, bne_iff_ne,
      decide_eq_true_eq]
    cases hid : x.identifier with
    | none => simp [globallyQualified, hid]; tauto
    | some v => simp [globallyQualified, hid]; tauto
  simp only [hfi]

/-- C5 witness: the Completion characterization applied at the concrete
sequence `C5tokens` with the cursor on `C5a`. -/
theorem onCompletion_spec_witness :
    (positionToToken C5tokens C5pos = some C5a ∧
      C5a.identifierKind ≠ some IdentifierKind.Unassignable) ∧
    onCompletion C5tokens C5pos =
      (specCompletion C5tokens C5a).map fun t =>
        ⟨getLabel t (some C5a),
          if t.lambda.isSome then CompletionItemKind.Function
          else CompletionItemKind.Variable⟩ :=
  ⟨⟨by decide, by decide⟩,
    onCompletion_spec C5tokens C5pos C5a (by decide) (by decide)⟩

/-- C6: on the modelled token sequence of the top-level document `a:1` the
code produces no UNUSED_VAR entry at all — `unusedVar` requires a present
enclosing-lambda context, which the top-level assignment lacks — and the
other embedded rules also return nothing, contradicting the claimed single
UNUSED_VAR diagnostic (which the repository test
`parser.test.ts, should lint unusedVar` asserts). -/
theorem unusedVar_top_level :
    C6assign ∈ C6tokens ∧ C6assign.kind = some TokenKind.Assignment ∧
    C6assign.scope = none ∧ (inLambda C6assign).isSome = false ∧
    unusedVar C6tokens = [] ∧ unusedParam C6tokens = [] ∧
    declaredAfterUse C6tokens = [] ∧ deprecatedDatetime C6tokens = [] ∧
    invalidEscape C6tokens = [] := by
  decide

/-- C7 counterexample: the claim says `declaredAfterUse` flags exactly the
Assignment tokens preceded by a non-assignment occurrence with the same
scope and identifier.  In `C7tokens` the Assignment token `C7assign` is
preceded by such an occurrence (`C7use`), yet the rule flags nothing,
because both tokens carry the Unassignable identifier kind and the rule
also demands assignability. -/
theorem declaredAfterUse_spec_cex :
    C7assign ∈ C7tokens ∧ C7assign.kind = some TokenKind.Assignment ∧
    C7use ∈ C7tokens ∧ C7use.kind ≠ some TokenKind.Assignment ∧
    C7use.scope = C7assign.scope ∧ C7use.identifier = C7assign.identifier ∧
    C7use.startLine = C7assign.startLine ∧
    C7use.startColumn < C7assign.startColumn ∧
    declaredAfterUse C7tokens = [] := by
  decide

/-- C7 (amended): `declaredAfterUse` flags exactly the Assignment tokens X
of non-Argument and non-Unassignable identifier kind for which some
non-assignment token Y of non-Unassignable identifier kind shares the scope
reference and the identifier of X and the source position of Y (compared by
line, then column) strictly precedes that of X. -/
theorem declaredAfterUse_spec (tokens : List Token) (t : Token) :
    t ∈ declaredAfterUse tokens ↔
      t ∈ tokens ∧ t.kind = some TokenKind.Assignment ∧
        t.identifierKind ≠ some IdentifierKind.Argument ∧
        t.identifierKind ≠ some IdentifierKind.Unassignable ∧
        ∃ y ∈ tokens, y.kind ≠ some TokenKind.Assignment ∧
          y.identifierKind ≠ some IdentifierKind.Unassignable ∧
          y.scope = t.scope ∧ y.identifier = t.identifier ∧
          (y.startLine < t.startLine ∨
            (y.startLine = t.startLine ∧ y.startColumn < t.startColumn)) := by
  unfold declaredAfterUse
  simp only [List.mem_filter, List.any_eq_true, Bool.and_eq_true,
    Bool.or_eq_true, bne_iff_ne, beq_iff_eq, Bool.not_eq_true',
    beq_eq_false_iff_ne, inParam, assigned, assignable, inLambda, identifier,
    ordered, decide_eq_true_eq]
  constructor
  · rintro ⟨⟨ht, hpk, ha⟩, y, hy, hq⟩
    obtain ⟨hp, hk⟩ := hpk
    obtain ⟨⟨⟨hyk, hya⟩, hsc⟩, hid⟩ := hq.1
    exact ⟨ht, hk, hp, ha, y, hy, hyk, hya, hsc, hid, hq.2⟩
  · rintro ⟨ht, hk, hp, ha, y, hy, hyk, hya, hsc, hid, hord⟩
    exact ⟨⟨ht, ⟨hp, hk⟩, ha⟩, y, hy, ⟨⟨⟨hyk, hya⟩, hsc⟩, hid⟩, hord⟩

/-- C8: when no token span contains the cursor position, or the token found
there is Unassignable, Reference, Definition and Completion return the empty
list and Rename returns the no-op result. -/
theorem queries_empty_on_unresolved (tokens : List Token) (position : Position)
    (uri newName : String)
    (h : (∀ t ∈ tokens, ¬ posInToken t position) ∨
      ∃ t, positionToToken tokens position = some t ∧
        t.identifierKind = some IdentifierKind.Unassignable) :
    onReferences tokens position uri = [] ∧
    onDefinition tokens position uri = [] ∧
    onCompletion tokens position = [] ∧
    onRenameRequest tokens position newName uri = none := by
  have hfi : ∀ k, findIdentifiers k tokens (positionToToken tokens position) = [] := by
    rcases h with h | ⟨t, ht, hu⟩
    · have hnone : positionToToken tokens position = none := by
        apply List.find?_eq_none.mpr
        intro t ht'
        have hn := h t ht'
        simp only [posInToken, not_and_or] at hn
        simp only [Bool.and_eq_true, decide_eq_true_eq, not_and_or]
        tauto
      intro k
      rw [hnone]
      rfl
    · intro k
      rw [ht]
      have hb : (t.identifierKind == some IdentifierKind.Unassignable) = true := by
        simp [hu]
      simp [findIdentifiers, hb]
  refine ⟨?_, ?_, ?_, ?_⟩
  · simp [onReferences, hfi]
  · simp [onDefinition, hfi]
  · simp [onCompletion, hfi]
  · simp [onRenameRequest, hfi]

/-- C8 witness: the empty results observed at the concrete sequence
`C8tokens` with a cursor position outside every token span. -/
theorem queries_empty_on_unresolved_witness :
    (∀ t ∈ C8tokens, ¬ posInToken t C8pos) ∧
    (onReferences C8tokens C8pos "u" = [] ∧
      onDefinition C8tokens C8pos "u" = [] ∧
      onCompletion C8tokens C8pos = [] ∧
      onRenameRequest C8tokens C8pos "b" "u" = none) :=
  ⟨by decide,
    queries_empty_on_unresolved C8tokens C8pos "u" "b" (Or.inl (by decide))⟩

/-- C9: no token of Unassignable identifier kind is ever contained in the
candidate set `findIdentifiers` computes — for any request kind (Reference,
Definition, Rename, Completion), any token sequence and any source. -/
theorem findIdentifiers_no_unassignable (k : FindKind) (tokens : List Token)
    (source : Option Token) (t : Token)
    (h : t ∈ findIdentifiers k tokens source) :
    t.identifierKind ≠ some IdentifierKind.Unassignable := by
  cases source with
  | none => simp [findIdentifiers] at h
  | some src =>
    by_cases hg : (src.identifierKind == some IdentifierKind.Unassignable) = true
    · simp only [findIdentifiers, hg] at h
      simp at h
    · cases k with
      | Reference =>
        simp only [findIdentifiers, hg] at h
        by_cases hloc : isLocal tokens src = true
        · rw [if_pos hloc] at h
          have := mem_filter_pred h
          simp only [Bool.and_eq_true, bne_iff_ne] at this
          tauto
        · rw [if_neg hloc] at h
          have := mem_filter_pred h
          simp only [Bool.and_eq_true, bne_iff_ne] at this
          tauto
      | Rename =>
        simp only [findIdentifiers, hg] at h
        by_cases hloc : isLocal tokens src = true
        · rw [if_pos hloc] at h
          have := mem_filter_pred h
          simp only [Bool.and_eq_true, bne_iff_ne] at this
          tauto
        · rw [if_neg hloc] at h
          have := mem_filter_pred h
          simp only [Bool.and_eq_true, bne_iff_ne] at this
          tauto
      | Definition =>
        simp only [findIdentifiers, hg] at h
        by_cases hloc : isLocal tokens src = true
        · rw [if_pos hloc] at h
          have := mem_filter_pred h
          simp only [Bool.and_eq_true, bne_iff_ne] at this
          tauto
        · rw [if_neg hloc] at h
          have := mem_filter_pred h
          simp only [Bool.and_eq_true, bne_iff_ne] at this
          tauto
      | Completion =>
        simp only [findIdentifiers, hg] at h
        rcases mem_dedupeGo _ _ _ h with h' | h'
        · simp at h'
        · have := mem_filter_pred h'
          simp only [Bool.and_eq_true, bne_iff_ne] at this
          tauto

/-- C9 witness: the invariant applied to a member of a concrete Reference
result. -/
theorem findIdentifiers_no_unassignable_witness :
    C9tok ∈ findIdentifiers FindKind.Reference C9tokens (some C9tok) ∧
    C9tok.identifierKind ≠ some IdentifierKind.Unassignable :=
  ⟨by decide,
    findIdentifiers_no_unassignable FindKind.Reference C9tokens (some C9tok)
      C9tok (by decide)⟩

/-- C10: the private helpers of `qLangServer.ts` and the exported functions
of `util/index.ts` compute identical results on every input. -/
theorem util_helpers_equiv :
    (∀ t, rangeFromToken t = Util.rangeFromToken t) ∧
    (∀ tokens target, isLocal tokens target = Util.isLocal tokens target) ∧
    (∀ tokens pos, positionToToken tokens pos = Util.positionToToken tokens pos) ∧
    (∀ t s, getLabel t s = Util.getLabel t s) :=
  ⟨fun _ => rfl, fun _ _ => rfl, fun _ _ => rfl, fun _ _ => rfl⟩
